import Mathlib

/-!
# k8s-lab API: request instrumentation, load generators and DB sampling

A shallow embedding of `src/api/main.go`.

Modelling conventions

* The process-wide prometheus collectors (`var ( ... )`, lines 24-56) are the
  fields of one `Registry` value that is threaded through every operation.
* A `CounterVec` / `HistogramVec` is the list of its children, created on the
  first `WithLabelValues` for a label tuple, as in the client library.
* Counter values are natural numbers (only `Inc` is ever applied).  The
  gauges are written with `Inc`, `Dec` and `Set(float64(x))` for an `int64`
  `x` only, so every gauge value is a float64 with an integer value; a gauge
  field holds that integer, and `float64` computes the conversion with its
  rounding to a 53-bit significand.
* What a handler does with its `http.ResponseWriter` and with the registry is
  a finite sequence of `Step`s followed by an `Outcome` (normal return or
  panic).  The request metrics (`totalRequests`, `successfulRequests`,
  `failedRequests`, `requestDuration`, `activeRequests`) are referenced only
  inside `prometheusMiddleware`, so the steps of a handler contain writer
  calls and writes to the `db_*` collectors.
* Go `int` is 64 bit.
* What the program reads from outside a request is an argument of the
  definition that reads it: the clock reading `time.Since(start)`, the results
  of `rand.Intn`, of `strconv.ParseFloat` and of the two database queries
  (`none` for `err != nil`).
* `Observe(d.Seconds())` records the duration `d`, and
  `time.Sleep(time.Duration(f * float64(time.Second)))` records `f`.
* A Go string is a byte sequence.  `r.URL.Path` is kept as a `GoString`, which
  can hold bytes that are not valid UTF-8; `r.Method` (a token checked by
  `net/http`) and the label text produced by the program are `String`s.
-/

namespace K8sLab

/-! ## Response bodies -/

/-- IEEE-754 binary64 values as far as comparison is concerned: every finite
value is a rational number (the two zeros are identified), plus the two
infinities and NaN. -/
inductive Float64 where
  | finite (q : ℚ)
  | posInf
  | negInf
  | nan
  deriving DecidableEq

/-- A Go value stored in the `map[string]any` handed to `ok`. -/
inductive Value where
  | int (i : Int)
  | str (s : String)
  | float (f : Float64)
  | sha256hex (data : String)
  deriving DecidableEq

/-- The `map[string]any` / `map[string]string` passed to `ok`, as its list of
key-value pairs; `json.Marshal` of it is what is written to the client. -/
abbrev Body := List (String × Value)

/-- Field lookup in a response body. -/
def Body.field (b : Body) (key : String) : Option Value :=
  (b.find? (fun kv => kv.1 == key)).map Prod.snd

/-! ## Metric registry -/

/-- Label values of one child of a metric vector, in declaration order. -/
abbrev Labels := List String

/-- A `prometheus.CounterVec`: its children with their current counts. -/
structure CounterVec where
  children : List (Labels × Nat)
  deriving DecidableEq

/-- Current value of the child for `lvs` (0 when it was never created). -/
def CounterVec.get (v : CounterVec) (lvs : Labels) : Nat :=
  match v.children.find? (fun c => c.1 == lvs) with
  | some c => c.2
  | none => 0

/-- Increment of the children list for `WithLabelValues(lvs...).Inc()`. -/
def incChild (lvs : Labels) : List (Labels × Nat) → List (Labels × Nat)
  | [] => [(lvs, 1)]
  | c :: cs => if c.1 == lvs then (c.1, c.2 + 1) :: cs else c :: incChild lvs cs

/-- The call `v.WithLabelValues(lvs...).Inc()`. -/
def CounterVec.inc (v : CounterVec) (lvs : Labels) : CounterVec :=
  { children := incChild lvs v.children }

/-- Sum of the counter over all label combinations. -/
def CounterVec.sum (v : CounterVec) : Nat :=
  (v.children.map Prod.snd).sum

/-- A `prometheus.HistogramVec`: per child the observations made so far
(durations, in nanoseconds of the `time.Duration` that `Seconds()` converts). -/
structure HistogramVec where
  children : List (Labels × List Int)
  deriving DecidableEq

/-- Observations recorded for the child `lvs`. -/
def HistogramVec.get (v : HistogramVec) (lvs : Labels) : List Int :=
  match v.children.find? (fun c => c.1 == lvs) with
  | some c => c.2
  | none => []

/-- Adds one observation to the child for `lvs` in the children list. -/
def observeChild (lvs : Labels) (d : Int) : List (Labels × List Int) → List (Labels × List Int)
  | [] => [(lvs, [d])]
  | c :: cs => if c.1 == lvs then (c.1, c.2 ++ [d]) :: cs else c :: observeChild lvs d cs

/-- The call `v.WithLabelValues(lvs...).Observe(d)`. -/
def HistogramVec.observe (v : HistogramVec) (lvs : Labels) (d : Int) : HistogramVec :=
  { children := observeChild lvs d v.children }

/-- The eight collectors registered in `init` (lines 24-60). -/
structure Registry where
  totalRequests : CounterVec
  successfulRequests : Nat
  failedRequests : Nat
  requestDuration : HistogramVec
  activeRequests : Int
  dbOperations : CounterVec
  dbRowCount : Int
  dbSizeBytes : Int
  deriving DecidableEq

/-- The registry right after `init`: no children, every value zero. -/
def Registry.init : Registry :=
  { totalRequests := { children := [] }
    successfulRequests := 0
    failedRequests := 0
    requestDuration := { children := [] }
    activeRequests := 0
    dbOperations := { children := [] }
    dbRowCount := 0
    dbSizeBytes := 0 }

/-! ## Conversion to float64 -/

/-- Number of low bits of `n` that do not fit a 53-bit significand (`fuel`
bounds the number of halvings). -/
def excessBits : Nat → Nat → Nat
  | 0, _ => 0
  | fuel + 1, n => if n < 2 ^ 53 then 0 else excessBits fuel (n / 2) + 1

/-- The natural number `n` rounded to 53 significant bits, to nearest and
ties to even. -/
def roundSignificand (n : Nat) : Nat :=
  let e := excessBits n n
  let q := n / 2 ^ e
  let rem := n % 2 ^ e
  if 2 * rem > 2 ^ e ∨ (2 * rem = 2 ^ e ∧ q % 2 = 1) then (q + 1) * 2 ^ e else q * 2 ^ e

/-- The Go conversion `float64(x)` of an `int64` `x`: the nearest float64,
ties to even.  The result has an integer value and is given as that integer. -/
def float64 (x : Int) : Int :=
  match x with
  | Int.ofNat n => (roundSignificand n : Nat)
  | Int.negSucc n => -((roundSignificand (n + 1) : Nat) : Int)

/-! ## Requests, response writers, handlers -/

/-- A Go string, which is a byte sequence: either valid UTF-8, given by the
text it encodes, or not valid UTF-8, given by its bytes. -/
inductive GoString where
  | utf8 (text : String)
  | invalid (bytes : List Nat)
  deriving DecidableEq

/-- The parts of `*http.Request` the program reads: `r.Method`, `r.URL.Path`
(the percent-decoded path, any byte sequence) and `r.URL.Query().Get(key)`
(the empty string when the key is absent). -/
structure Request where
  Method : String
  Path : GoString
  Query : String → String

/-- A call on an `http.ResponseWriter`. -/
inductive Call where
  | setHeader (key value : String)
  | writeHeader (statusCode : Int)
  | write (b : Body)
  deriving DecidableEq

/-- The response writer of the connection: the calls it has received. -/
structure ResponseWriter where
  calls : List Call
  deriving DecidableEq

/-- The underlying writer receives a call. -/
def ResponseWriter.recv (w : ResponseWriter) (c : Call) : ResponseWriter :=
  { calls := w.calls ++ [c] }

/-- The type `statusWriter` (lines 150-153): the embedded writer and the
recorded status. -/
structure statusWriter where
  ResponseWriter : ResponseWriter
  status : Int
  deriving DecidableEq

/-- The method `statusWriter.WriteHeader` (lines 155-158). -/
def statusWriter.WriteHeader (w : statusWriter) (statusCode : Int) : statusWriter :=
  { ResponseWriter := w.ResponseWriter.recv (Call.writeHeader statusCode)
    status := statusCode }

/-- The method `Write`, promoted from the embedded `http.ResponseWriter`. -/
def statusWriter.Write (w : statusWriter) (b : Body) : statusWriter :=
  { w with ResponseWriter := w.ResponseWriter.recv (Call.write b) }

/-- The call `w.Header().Set(key, value)`, promoted from the embedded writer. -/
def statusWriter.HeaderSet (w : statusWriter) (key value : String) : statusWriter :=
  { w with ResponseWriter := w.ResponseWriter.recv (Call.setHeader key value) }

/-- Dispatch of one writer call on a `statusWriter`. -/
def statusWriter.call (w : statusWriter) : Call → statusWriter
  | Call.setHeader k v => w.HeaderSet k v
  | Call.writeHeader c => w.WriteHeader c
  | Call.write b => w.Write b

/-- One effect of a handler: a call on its response writer; the calls
`dbRowCount.Set(float64(x))` and `dbSizeBytes.Set(float64(x))` for an `int64`
`x`; `dbOperations.WithLabelValues(operation).Inc()`;
`time.Sleep(time.Duration(seconds * float64(time.Second)))` for a float64
`seconds`; or the allocation `make([]byte, n)` of a buffer together with the
loop that fills it, given by the resulting contents. -/
inductive Step where
  | writer (c : Call)
  | dbRowCountSet (x : Int)
  | dbSizeBytesSet (x : Int)
  | dbOperationsInc (operation : String)
  | sleep (seconds : Float64)
  | makeBlock (contents : List Nat)
  deriving DecidableEq

/-- How a handler invocation ends. -/
inductive Outcome where
  | returned
  | panicked
  deriving DecidableEq

/-- One execution of `ServeHTTP`: the effects in program order and how it
ended (the effects of a panicking run are those made before the panic). -/
structure Run where
  steps : List Step
  outcome : Outcome
  deriving DecidableEq

/-- An `http.Handler`, as the run it performs for a request. -/
abbrev Handler := Request → Run

/-- State while a handler runs behind the middleware. -/
structure Serving where
  ww : statusWriter
  reg : Registry
  deriving DecidableEq

/-- Effect of one step. -/
def Serving.step (s : Serving) : Step → Serving
  | Step.writer c => { s with ww := s.ww.call c }
  | Step.dbRowCountSet x => { s with reg := { s.reg with dbRowCount := float64 x } }
  | Step.dbSizeBytesSet x => { s with reg := { s.reg with dbSizeBytes := float64 x } }
  | Step.dbOperationsInc op =>
      { s with reg := { s.reg with dbOperations := s.reg.dbOperations.inc [op] } }
  | Step.sleep _ => s
  | Step.makeBlock _ => s

/-- Effect of all steps of a run, in order. -/
def Serving.exec (s : Serving) (steps : List Step) : Serving :=
  steps.foldl Serving.step s

/-! ## strconv -/

/-- ASCII digit for `d < 10`. -/
def digitChar (d : Nat) : Char := Char.ofNat (48 + d)

/-- Decimal digits of `n`, most significant first, prepended to `acc`
(`fuel` bounds the number of digits). -/
def formatBits : Nat → Nat → List Char → List Char
  | 0, _, acc => acc
  | fuel + 1, n, acc =>
      if n / 10 = 0 then digitChar (n % 10) :: acc
      else formatBits fuel (n / 10) (digitChar (n % 10) :: acc)

/-- Standard library `strconv.FormatUint(n, 10)`. -/
def FormatUint (n : Nat) : String := String.mk (formatBits (n + 1) n [])

/-- Standard library `strconv.Itoa`: the decimal text of an integer. -/
def Itoa (i : Int) : String :=
  match i with
  | Int.ofNat n => FormatUint n
  | Int.negSucc n => String.mk ('-' :: formatBits (n + 2) (n + 1) [])

/-- Reads a run of ASCII digits; `none` on any other character. -/
def parseDigits : List Char → Nat → Option Nat
  | [], acc => some acc
  | c :: cs, acc =>
      if 48 ≤ c.toNat ∧ c.toNat ≤ 57 then parseDigits cs (acc * 10 + (c.toNat - 48))
      else none

/-- Magnitude parsing of `strconv.ParseInt(s, 10, 0)` after the sign: at
least one digit, digits only. -/
def parseMagnitude (cs : List Char) : Option Nat :=
  if cs = [] then none else parseDigits cs 0

/-- Standard library `strconv.Atoi` with its error collapsed to `none`
(syntax error, or value outside the 64-bit `int` range). -/
def Atoi (s : String) : Option Int :=
  match s.data with
  | [] => none
  | c :: cs =>
      if c = '-' then
        match parseMagnitude cs with
        | some n => if n ≤ 2 ^ 63 then some (-(n : Int)) else none
        | none => none
      else
        match parseMagnitude (if c = '+' then cs else c :: cs) with
        | some n => if n < 2 ^ 63 then some (n : Int) else none
        | none => none

/-! ## Helpers and middleware -/

/-- Whether `json.Marshal` accepts the value: it rejects the float64 values
NaN and the infinities, and nothing else that occurs here. -/
def Value.marshals : Value → Bool
  | Value.float (Float64.finite _) => true
  | Value.float _ => false
  | _ => true

/-- The helper `ok` (lines 236-244): the three calls it makes on `w`; the
body is the empty object when `json.Marshal` fails. -/
def ok (v : Body) : List Step :=
  [Step.writer (Call.setHeader "Content-Type" "application/json"),
   Step.writer (Call.writeHeader 200),
   Step.writer (Call.write (if v.all (fun kv => kv.2.marshals) then v else []))]

/-- Result of serving one request on the connection writer. -/
structure Result where
  w : ResponseWriter
  reg : Registry
  outcome : Outcome
  deriving DecidableEq

/-- An `http.HandlerFunc` acting on the connection writer and the registry. -/
abbrev HandlerFunc := ResponseWriter → Request → Registry → Result

/-- The method `Server.prometheusMiddleware` (lines 128-148).  The argument
`elapsed` is the reading `time.Since(start)`.  The function has no deferred
call, so a panic of `next.ServeHTTP` leaves it before line 136.  In line 138
`WithLabelValues` panics when a label value is not valid UTF-8, which
`r.URL.Path` can be; that panic leaves the function before any collector is
written. -/
def Server.prometheusMiddleware (next : Handler) (elapsed : Int) : HandlerFunc :=
  fun w r reg =>
    -- activeRequests.Inc()
    let reg := { reg with activeRequests := reg.activeRequests + 1 }
    let ww : statusWriter := { ResponseWriter := w, status := 200 }
    -- next.ServeHTTP(ww, r)
    let run := next r
    let s := Serving.exec { ww := ww, reg := reg } run.steps
    match run.outcome with
    | Outcome.panicked => { w := s.ww.ResponseWriter, reg := s.reg, outcome := Outcome.panicked }
    | Outcome.returned =>
        let reg := s.reg
        match r.Path with
        | GoString.invalid _ =>
            -- totalRequests.WithLabelValues(...) panics
            { w := s.ww.ResponseWriter, reg := reg, outcome := Outcome.panicked }
        | GoString.utf8 endpoint =>
            let reg := { reg with
              totalRequests := reg.totalRequests.inc [r.Method, endpoint, Itoa s.ww.status] }
            let reg := { reg with
              requestDuration := reg.requestDuration.observe [r.Method, endpoint] elapsed }
            let reg := { reg with activeRequests := reg.activeRequests - 1 }
            let reg :=
              if s.ww.status ≥ 200 ∧ s.ww.status < 400 then
                { reg with successfulRequests := reg.successfulRequests + 1 }
              else
                { reg with failedRequests := reg.failedRequests + 1 }
            { w := s.ww.ResponseWriter, reg := reg, outcome := Outcome.returned }

/-- The chi middleware `middleware.Recoverer`: a panic of the wrapped handler
is recovered and answered with `WriteHeader(500)` on the writer it was given
(its two special cases, the re-panic of `http.ErrAbortHandler` and the
`Connection: Upgrade` request that gets no status, are left out). -/
def Recoverer (next : HandlerFunc) : HandlerFunc :=
  fun w r reg =>
    let res := next w r reg
    match res.outcome with
    | Outcome.returned => res
    | Outcome.panicked =>
        { w := res.w.recv (Call.writeHeader 500), reg := res.reg, outcome := Outcome.returned }

/-- The middleware stack installed by `Server.routes` (lines 110-112) around
`mux`, the dispatch to the handlers registered in lines 114-124: `Recoverer`
is installed first, hence outermost, and `prometheusMiddleware` inside it.
`middleware.RealIP` rewrites `r.RemoteAddr` only, which is not part of
`Request`. -/
def Server.routes (mux : Handler) (elapsed : Int) : HandlerFunc :=
  Recoverer (Server.prometheusMiddleware mux elapsed)

/-- The writer calls among the steps of a run, in order. -/
def callsOf : List Step → List Call
  | [] => []
  | Step.writer c :: rest => c :: callsOf rest
  | _ :: rest => callsOf rest

/-- The status codes passed to `WriteHeader` among writer calls, in order. -/
def headerCodes : List Call → List Int
  | [] => []
  | Call.writeHeader c :: rest => c :: headerCodes rest
  | _ :: rest => headerCodes rest

/-- The status a handler run leaves for the middleware to read: the code of
its last `WriteHeader`, or 200 when it made none. -/
def capturedStatus (run : Run) : Int :=
  (headerCodes (callsOf run.steps)).getLast?.getD 200

/-- One request as it reaches the middleware: the connection writer, the
request, the handler it is routed to and the elapsed-time reading. -/
structure Arrival where
  w : ResponseWriter
  r : Request
  next : Handler
  elapsed : Int

/-- Registry after the middleware has served one arrival. -/
def serveOne (reg : Registry) (a : Arrival) : Registry :=
  (Server.prometheusMiddleware a.next a.elapsed a.w a.r reg).reg

/-- Registry after the middleware has served the arrivals one at a time. -/
def serveAll (reg : Registry) (arrivals : List Arrival) : Registry :=
  arrivals.foldl serveOne reg

/-- The body a run writes to its response writer (the first `Write`). -/
def responseBody (run : Run) : Option Body :=
  (callsOf run.steps).findSome? (fun c => match c with
    | Call.write b => some b
    | _ => none)

/-- The value a run reports under `key` in its response body. -/
def reported (run : Run) (key : String) : Option Value :=
  (responseBody run).bind (fun b => b.field key)

/-! ## Load generators -/

/-- The local `iterations` of `cpuIntensive` after lines 162-167. -/
def cpuIntensive_iterations (r : Request) : Int :=
  let v := r.Query "iterations"
  if v ≠ "" then
    match Atoi v with
    | some n => if n > 0 then n else 1000000
    | none => 1000000
  else 1000000

/-- The accumulator of `cpuIntensive` after the loop of lines 169-176:
`uint64` addition of `uint64(i*i)`. -/
def cpuIntensive_acc (iterations : Int) : Nat :=
  (List.range iterations.toNat).foldl (fun acc i => (acc + (i * i) % 2 ^ 64) % 2 ^ 64) 0

/-- The handler `Server.cpuIntensive` (lines 161-180). -/
def Server.cpuIntensive : Handler := fun r =>
  let iterations := cpuIntensive_iterations r
  let acc := cpuIntensive_acc iterations
  { steps := ok [("hash", Value.sha256hex (FormatUint acc)), ("iterations", Value.int iterations)]
    outcome := Outcome.returned }

/-- The local `sizeMB` of `memoryIntensive` after lines 183-188. -/
def memoryIntensive_sizeMB (r : Request) : Int :=
  let v := r.Query "size_mb"
  if v ≠ "" then
    match Atoi v with
    | some n => if n > 0 ∧ n ≤ 100 then n else 10
    | none => 10
  else 10

/-- The slice `blocks` of `memoryIntensive` after lines 190-197; `intn k` is
the result of the `k`-th call `rand.Intn(256)` of the request. -/
def memoryIntensive_blocks (intn : Nat → Nat) (r : Request) : List (List Nat) :=
  (List.range (memoryIntensive_sizeMB r).toNat).map (fun i =>
    (List.range (1024 * 1024)).map (fun j => intn (i * (1024 * 1024) + j) % 256))

/-- The handler `Server.memoryIntensive` (lines 182-205): it allocates and
fills the blocks one after the other, then answers.  The sum of lines 199-203
is discarded by the source (`_ = sum`). -/
def Server.memoryIntensive (intn : Nat → Nat) : Handler := fun r =>
  let sizeMB := memoryIntensive_sizeMB r
  let blocks := memoryIntensive_blocks intn r
  { steps := blocks.map Step.makeBlock ++ ok [("allocated_mb", Value.int sizeMB)]
    outcome := Outcome.returned }

/-- The buffers a run allocates, in order, each with its contents. -/
def allocations : List Step → List (List Nat)
  | [] => []
  | Step.makeBlock b :: rest => b :: allocations rest
  | _ :: rest => allocations rest

/-- The float64 comparison `a <= b`. -/
def Float64.le : Float64 → Float64 → Bool
  | Float64.nan, _ => false
  | _, Float64.nan => false
  | Float64.negInf, _ => true
  | _, Float64.posInf => true
  | Float64.finite a, Float64.finite b => decide (a ≤ b)
  | Float64.finite _, Float64.negInf => false
  | Float64.posInf, Float64.finite _ => false
  | Float64.posInf, Float64.negInf => false

/-- The local `delay` of `simulateDelay` after lines 208-213; `ParseFloat v`
is the result of `strconv.ParseFloat(v, 64)`, `none` when it returns an error. -/
def simulateDelay_delay (ParseFloat : String → Option Float64) (r : Request) : Float64 :=
  let v := r.Query "delay_seconds"
  if v ≠ "" then
    match ParseFloat v with
    | some f =>
        if Float64.le (Float64.finite 0) f ∧ Float64.le f (Float64.finite 10) then f
        else Float64.finite 1
    | none => Float64.finite 1
  else Float64.finite 1

/-- The handler `Server.simulateDelay` (lines 207-216). -/
def Server.simulateDelay (ParseFloat : String → Option Float64) : Handler := fun r =>
  let delay := simulateDelay_delay ParseFloat r
  { steps := Step.sleep delay :: ok [("delay_seconds", Value.float delay), ("message", Value.str "ok")]
    outcome := Outcome.returned }

/-! ## Database metrics -/

/-- The handler `Server.stats` (lines 218-233).  `rowQuery` and `sizeQuery`
are the results of the two `QueryRow(...).Scan` calls: the scanned `int64`,
or `none` when `err != nil` (the destination then keeps its zero value).  The
gauges receive `float64(cnt)` and `float64(sizeBytes)` (see `Serving.step`),
the response the two `int64` values. -/
def Server.stats (rowQuery sizeQuery : Option Int) : Handler := fun _ =>
  let cnt : Int := rowQuery.getD 0
  let rowSteps := match rowQuery with
    | some v => [Step.dbRowCountSet v]
    | none => []
  let sizeBytes : Int := sizeQuery.getD 0
  let sizeSteps := match sizeQuery with
    | some v => [Step.dbSizeBytesSet v]
    | none => []
  { steps := rowSteps ++ sizeSteps ++ [Step.dbOperationsInc "stats"]
      ++ ok [("db_rows", Value.int cnt), ("db_size_bytes", Value.int sizeBytes)]
    outcome := Outcome.returned }

/-- The function `collectDBMetrics` (lines 246-253), called by the ticker
loop of `main` (lines 88-94); `sizeQuery` is the result of its query, `none`
on error or timeout. -/
def collectDBMetrics (sizeQuery : Option Int) (reg : Registry) : Registry :=
  match sizeQuery with
  | some sizeBytes => { reg with dbSizeBytes := float64 sizeBytes }
  | none => reg

/-- The handler registered for `GET /health` (line 117). -/
def healthHandler : Handler := fun _ =>
  { steps := ok [("status", Value.str "healthy")], outcome := Outcome.returned }

/-- A handler whose `ServeHTTP` panics before doing anything else. -/
def panickingHandler : Handler := fun _ =>
  { steps := [], outcome := Outcome.panicked }

/-- The request `GET /health` without query parameters. -/
def getHealth : Request :=
  { Method := "GET", Path := GoString.utf8 "/health", Query := fun _ => "" }

/-- The request `GET /%ff`: its path is the byte `/` followed by the byte
0xFF, which is not valid UTF-8. -/
def getInvalidPath : Request :=
  { Method := "GET", Path := GoString.invalid [47, 255], Query := fun _ => "" }

/-- The answer of the router to a path no route matches (`http.NotFound`), as
far as the middleware sees it: its `WriteHeader(404)`, then a normal return
(its plain-text body is not a `Body`). -/
def notFoundHandler : Handler := fun _ =>
  { steps := [Step.writer (Call.writeHeader 404)], outcome := Outcome.returned }

/-- A request `POST path?key=value` with that single query parameter. -/
def postWith (path key value : String) : Request :=
  { Method := "POST", Path := GoString.utf8 path
    Query := fun k => if k = key then value else "" }

/-- The arguments of the `time.Sleep` calls of a run, in seconds. -/
def sleeps : List Step → List Float64
  | [] => []
  | Step.sleep d :: rest => d :: sleeps rest
  | _ :: rest => sleeps rest

/-- The real interval `[0, 10]` as a set of float64 values: finite values
between the bounds (no infinity, not NaN). -/
def Float64.inDelayRange : Float64 → Bool
  | Float64.finite q => decide (0 ≤ q ∧ q ≤ 10)
  | _ => false

/-- A `strconv.ParseFloat` that reads the text `2.5` and `NaN`. -/
def parseSample (v : String) : Option Float64 :=
  if v = "2.5" then some (Float64.finite (5 / 2))
  else if v = "NaN" then some Float64.nan
  else none

/-- A serving state on a fresh connection whose registry holds earlier
samples of the two db gauges. -/
def sampledServing : Serving :=
  { ww := { ResponseWriter := { calls := [] }, status := 200 }
    reg := { Registry.init with dbRowCount := 10, dbSizeBytes := 7000 } }

/-- Decimal integer syntax: an optional sign followed by one or more ASCII
digits. -/
def isDecimal (v : String) : Bool :=
  match v.data with
  | [] => false
  | c :: cs =>
      if c = '-' ∨ c = '+' then
        !cs.isEmpty && cs.all (fun d => decide (48 ≤ d.toNat ∧ d.toNat ≤ 57))
      else (c :: cs).all (fun d => decide (48 ≤ d.toNat ∧ d.toNat ≤ 57))

/-! ## Lemmas on strconv -/

theorem digitChar_toNat (d : Nat) (h : d < 10) : (digitChar d).toNat = 48 + d := by
  interval_cases d <;> rfl

theorem parseDigits_formatBits (fuel : Nat) :
    ∀ (n : Nat) (acc : List Char), n < fuel →
      parseDigits (formatBits fuel n acc) 0 = parseDigits acc n := by
  induction fuel with
  | zero => intro n acc h; omega
  | succ fuel ih =>
    intro n acc h
    have hd : (digitChar (n % 10)).toNat = 48 + n % 10 :=
      digitChar_toNat _ (Nat.mod_lt _ (by norm_num))
    have hstep : parseDigits (digitChar (n % 10) :: acc) (n / 10) = parseDigits acc n := by
      have h1 : 48 ≤ 48 + n % 10 ∧ 48 + n % 10 ≤ 57 := by omega
      have h2 : n / 10 * 10 + (48 + n % 10 - 48) = n := by omega
      simp only [parseDigits, hd, h1, and_self, if_true, h2]
    unfold formatBits
    by_cases h0 : n / 10 = 0
    · rw [if_pos h0, ← hstep, h0]
    · rw [if_neg h0, ih (n / 10) _ (by omega), hstep]

theorem formatBits_digit_head (fuel : Nat) :
    ∀ (n d0 : Nat) (acc : List Char), d0 < 10 →
      ∃ d rest, d < 10 ∧ formatBits fuel n (digitChar d0 :: acc) = digitChar d :: rest := by
  induction fuel with
  | zero => intro n d0 acc h; exact ⟨d0, acc, h, rfl⟩
  | succ fuel ih =>
    intro n d0 acc _
    unfold formatBits
    by_cases h0 : n / 10 = 0
    · rw [if_pos h0]
      exact ⟨n % 10, _, Nat.mod_lt _ (by norm_num), rfl⟩
    · rw [if_neg h0]
      exact ih (n / 10) (n % 10) _ (Nat.mod_lt _ (by norm_num))

theorem formatBits_succ_head (fuel n : Nat) :
    ∃ d rest, d < 10 ∧ formatBits (fuel + 1) n [] = digitChar d :: rest := by
  unfold formatBits
  by_cases h0 : n / 10 = 0
  · rw [if_pos h0]
    exact ⟨n % 10, _, Nat.mod_lt _ (by norm_num), rfl⟩
  · rw [if_neg h0]
    exact formatBits_digit_head fuel (n / 10) (n % 10) _ (Nat.mod_lt _ (by norm_num))

theorem digitChar_ne_sign (d : Nat) (h : d < 10) : digitChar d ≠ '-' ∧ digitChar d ≠ '+' := by
  have ht := digitChar_toNat d h
  constructor
  · intro e
    rw [e] at ht
    have : ('-' : Char).toNat = 45 := rfl
    omega
  · intro e
    rw [e] at ht
    have : ('+' : Char).toNat = 43 := rfl
    omega

/-- Parsing the decimal text of an integer gives the integer back exactly
when it fits the 64-bit `int`, and an error otherwise. -/
theorem Atoi_Itoa (N : Int) :
    Atoi (Itoa N) = if -(2 : Int) ^ 63 ≤ N ∧ N < (2 : Int) ^ 63 then some N else none := by
  have hlow : -(2 : Int) ^ 63 ≤ 0 := by norm_num
  cases N with
  | ofNat n =>
    obtain ⟨d, rest, hd, hfmt⟩ := formatBits_succ_head n n
    obtain ⟨hneg, hpos⟩ := digitChar_ne_sign d hd
    have hparse := parseDigits_formatBits (n + 1) n [] (by omega)
    rw [hfmt] at hparse
    have hmag : parseMagnitude (digitChar d :: rest) = some n := by
      simp only [parseMagnitude]
      rw [if_neg (List.cons_ne_nil _ _), hparse]
      rfl
    have e : Int.ofNat n = (n : Int) := rfl
    have hnn : (0 : Int) ≤ (n : Int) := Int.ofNat_nonneg n
    simp only [Itoa, FormatUint, Atoi, hfmt, hneg, hpos, if_false, hmag, e]
    by_cases hr : n < 2 ^ 63
    · have h2 : (n : Int) < (2 : Int) ^ 63 := by exact_mod_cast hr
      rw [if_pos hr, if_pos ⟨by linarith, h2⟩]
    · have h2 : ¬ ((n : Int) < (2 : Int) ^ 63) := by
        intro h
        exact hr (by exact_mod_cast h)
      rw [if_neg hr, if_neg (fun h => h2 h.2)]
  | negSucc n =>
    obtain ⟨d, rest, _, hfmt⟩ := formatBits_succ_head (n + 1) (n + 1)
    have hparse := parseDigits_formatBits (n + 2) (n + 1) [] (by omega)
    have hmag : parseMagnitude (formatBits (n + 2) (n + 1) []) = some (n + 1) := by
      simp only [parseMagnitude]
      rw [hparse, hfmt, if_neg (List.cons_ne_nil _ _)]
      rfl
    have h1 : Int.negSucc n = -(((n + 1 : Nat) : Int)) := rfl
    simp only [Itoa, Atoi, if_true, hmag]
    by_cases hr : n + 1 ≤ 2 ^ 63
    · have h2 : (((n + 1 : Nat) : Int)) ≤ (2 : Int) ^ 63 := by exact_mod_cast hr
      have h3 : (0 : Int) ≤ (((n + 1 : Nat) : Int)) := Int.ofNat_nonneg _
      rw [if_pos hr, if_pos ⟨by rw [h1]; linarith, by rw [h1]; linarith⟩, h1]
    · have h2 : ¬ ((((n + 1 : Nat) : Int)) ≤ (2 : Int) ^ 63) := by
        intro h
        exact hr (by exact_mod_cast h)
      rw [if_neg hr, if_neg (fun h => h2 (by rw [h1] at h; linarith [h.1]))]

theorem Itoa_ne_empty (N : Int) : Itoa N ≠ "" := by
  cases N with
  | ofNat n =>
    obtain ⟨d, rest, _, hfmt⟩ := formatBits_succ_head n n
    intro h
    have := congrArg String.data h
    simp [Itoa, FormatUint, hfmt] at this
  | negSucc n =>
    intro h
    have := congrArg String.data h
    simp [Itoa] at this

theorem parseDigits_none (cs : List Char) :
    ∀ acc, cs.all (fun d => decide (48 ≤ d.toNat ∧ d.toNat ≤ 57)) = false →
      parseDigits cs acc = none := by
  induction cs with
  | nil => intro acc h; simp at h
  | cons c cs ih =>
    intro acc h
    by_cases hc : 48 ≤ c.toNat ∧ c.toNat ≤ 57
    · have hrest : cs.all (fun d => decide (48 ≤ d.toNat ∧ d.toNat ≤ 57)) = false := by
        simpa [List.all_cons, hc] using h
      simp only [parseDigits, hc, and_self, if_true]
      exact ih _ hrest
    · simp only [parseDigits, hc, if_false]

/-- Text that is not a decimal integer is rejected by `Atoi`. -/
theorem Atoi_not_decimal (v : String) (h : isDecimal v = false) : Atoi v = none := by
  unfold isDecimal at h
  unfold Atoi
  cases hv : v.data with
  | nil => rfl
  | cons c cs =>
    rw [hv] at h
    simp only at h ⊢
    by_cases hm : c = '-'
    · have hcs : cs = [] ∨ cs.all (fun d => decide (48 ≤ d.toNat ∧ d.toNat ≤ 57)) = false := by
        cases cs with
        | nil => exact Or.inl rfl
        | cons x xs => right; simpa [hm] using h
      have : parseMagnitude cs = none := by
        rcases hcs with h1 | h1
        · simp [parseMagnitude, h1]
        · simp [parseMagnitude, parseDigits_none cs 0 h1]
      simp [hm, this]
    · by_cases hp : c = '+'
      · have hcs : cs = [] ∨ cs.all (fun d => decide (48 ≤ d.toNat ∧ d.toNat ≤ 57)) = false := by
          cases cs with
          | nil => exact Or.inl rfl
          | cons x xs => right; simpa [hp] using h
        have : parseMagnitude cs = none := by
          rcases hcs with h1 | h1
          · simp [parseMagnitude, h1]
          · simp [parseMagnitude, parseDigits_none cs 0 h1]
        simp [hm, hp, this]
      · have hall : (c :: cs).all (fun d => decide (48 ≤ d.toNat ∧ d.toNat ≤ 57)) = false := by
          simpa [hm, hp] using h
        have : parseMagnitude (c :: cs) = none := by
          simp [parseMagnitude, parseDigits_none (c :: cs) 0 hall]
        simp [hm, hp, this]

/-! ## Lemmas on float64 -/

theorem excessBits_small (fuel n : Nat) (h : n < 2 ^ 53) : excessBits fuel n = 0 := by
  cases fuel with
  | zero => rfl
  | succ f => simp only [excessBits, if_pos h]

theorem roundSignificand_exact (n : Nat) (h : n ≤ 2 ^ 53) : roundSignificand n = n := by
  rcases Nat.lt_or_eq_of_le h with hlt | heq
  · have hmod : n % 1 = 0 := Nat.mod_one n
    simp only [roundSignificand, excessBits_small n n hlt, pow_zero, Nat.div_one, hmod,
      Nat.mul_zero, Nat.mul_one]
    rw [if_neg (by omega)]
  · subst heq
    decide

/-- The conversion to float64 is exact on integers of magnitude at most 2^53. -/
theorem float64_exact (x : Int) (hlo : -(2 : Int) ^ 53 ≤ x) (hhi : x ≤ (2 : Int) ^ 53) :
    float64 x = x := by
  cases x with
  | ofNat n =>
    have hn : n ≤ 2 ^ 53 := by
      have : ((n : Nat) : Int) ≤ (2 : Int) ^ 53 := hhi
      exact_mod_cast this
    simp only [float64, roundSignificand_exact n hn]
    rfl
  | negSucc n =>
    have h1 : Int.negSucc n = -(((n + 1 : Nat) : Int)) := rfl
    have hn : n + 1 ≤ 2 ^ 53 := by
      have : (((n + 1 : Nat) : Int)) ≤ (2 : Int) ^ 53 := by rw [h1] at hlo; linarith
      exact_mod_cast this
    simp only [float64, roundSignificand_exact (n + 1) hn]
    rfl

/-! ## Lemmas on metric vectors -/

theorem incChild_get_self (lvs : Labels) (cs : List (Labels × Nat)) :
    CounterVec.get ⟨incChild lvs cs⟩ lvs = CounterVec.get ⟨cs⟩ lvs + 1 := by
  induction cs with
  | nil => simp [incChild, CounterVec.get]
  | cons c cs ih =>
    by_cases h : c.1 = lvs
    · simp [incChild, CounterVec.get, h]
    · simp only [CounterVec.get] at ih
      simp [incChild, CounterVec.get, h, ih]

theorem incChild_get_other (lvs other : Labels) (hne : other ≠ lvs) (cs : List (Labels × Nat)) :
    CounterVec.get ⟨incChild lvs cs⟩ other = CounterVec.get ⟨cs⟩ other := by
  induction cs with
  | nil =>
    have : ¬ lvs = other := fun h => hne h.symm
    simp [incChild, CounterVec.get, this]
  | cons c cs ih =>
    by_cases h : c.1 = lvs
    · have h2 : ¬ c.1 = other := fun e => hne (e.symm.trans h)
      simp [incChild, CounterVec.get, h, h2]
      simp [← h, h2]
    · simp only [CounterVec.get] at ih
      by_cases h3 : c.1 = other
      · simp [incChild, CounterVec.get, h3, hne]
      · simp [incChild, CounterVec.get, h, h3, ih]

theorem CounterVec.get_inc (v : CounterVec) (lvs other : Labels) :
    (v.inc lvs).get other = v.get other + (if other = lvs then 1 else 0) := by
  by_cases h : other = lvs
  · subst h
    simpa [CounterVec.inc] using incChild_get_self other v.children
  · simpa [CounterVec.inc, h] using incChild_get_other lvs other h v.children

theorem CounterVec.sum_inc (v : CounterVec) (lvs : Labels) :
    (v.inc lvs).sum = v.sum + 1 := by
  obtain ⟨cs⟩ := v
  simp only [CounterVec.inc, CounterVec.sum]
  induction cs with
  | nil => simp [incChild]
  | cons c cs ih =>
    by_cases h : c.1 = lvs
    · simp [incChild, h]; omega
    · simp [incChild, h, ih]; omega

theorem HistogramVec.get_observe (v : HistogramVec) (lvs other : Labels) (d : Int) :
    (v.observe lvs d).get other
      = if other = lvs then v.get other ++ [d] else v.get other := by
  obtain ⟨cs⟩ := v
  simp only [HistogramVec.observe, HistogramVec.get]
  induction cs with
  | nil =>
    by_cases h : other = lvs
    · simp [observeChild, h]
    · have : ¬ lvs = other := fun e => h e.symm
      simp [observeChild, h, this]
  | cons c cs ih =>
    by_cases h1 : c.1 = lvs
    · by_cases h2 : other = lvs
      · simp [observeChild, h1, h2]
      · have h3 : ¬ c.1 = other := fun e => h2 (e.symm.trans h1)
        have h4 : ¬ lvs = other := fun e => h2 e.symm
        simp [observeChild, h1, h2, h4]
    · by_cases h3 : c.1 = other
      · by_cases h2 : other = lvs
        · exact absurd (h3.trans h2) h1
        · simp [observeChild, h1, h2, h3]
      · simp [observeChild, h1, h3, ih]

/-! ## Lemmas on handler execution -/

/-- The writer calls of a run reach the underlying writer in order, and the
recorded status is the code of the last `WriteHeader` among them. -/
theorem Serving.exec_writer (steps : List Step) (s : Serving) :
    (s.exec steps).ww.ResponseWriter.calls = s.ww.ResponseWriter.calls ++ callsOf steps
    ∧ (s.exec steps).ww.status = (headerCodes (callsOf steps)).getLast?.getD s.ww.status := by
  induction steps generalizing s with
  | nil => simp [Serving.exec, callsOf, headerCodes]
  | cons st rest ih =>
    have hstep : s.exec (st :: rest) = (s.step st).exec rest := by
      simp [Serving.exec]
    rw [hstep]
    obtain ⟨ih1, ih2⟩ := ih (s.step st)
    rw [ih1, ih2]
    cases st with
    | writer c =>
      cases c <;>
        simp [Serving.step, statusWriter.call, statusWriter.HeaderSet, statusWriter.WriteHeader,
          statusWriter.Write, ResponseWriter.recv, callsOf, headerCodes, List.getLast?_cons]
    | dbRowCountSet v => simp [Serving.step, callsOf]
    | dbSizeBytesSet v => simp [Serving.step, callsOf]
    | dbOperationsInc op => simp [Serving.step, callsOf]
    | sleep d => simp [Serving.step, callsOf]
    | makeBlock b => simp [Serving.step, callsOf]

/-- A handler run leaves the five request collectors as it found them. -/
theorem Serving.exec_frame (steps : List Step) (s : Serving) :
    (s.exec steps).reg.totalRequests = s.reg.totalRequests
    ∧ (s.exec steps).reg.successfulRequests = s.reg.successfulRequests
    ∧ (s.exec steps).reg.failedRequests = s.reg.failedRequests
    ∧ (s.exec steps).reg.requestDuration = s.reg.requestDuration
    ∧ (s.exec steps).reg.activeRequests = s.reg.activeRequests := by
  induction steps generalizing s with
  | nil => simp [Serving.exec]
  | cons st rest ih =>
    have hstep : s.exec (st :: rest) = (s.step st).exec rest := by
      simp [Serving.exec]
    rw [hstep]
    obtain ⟨h1, h2, h3, h4, h5⟩ := ih (s.step st)
    rw [h1, h2, h3, h4, h5]
    cases st <;> simp [Serving.step]

/-- The db collectors after a run do not depend on the writer or on the
request collectors it started with. -/
theorem Serving.exec_db (steps : List Step) (s t : Serving)
    (h1 : s.reg.dbOperations = t.reg.dbOperations)
    (h2 : s.reg.dbRowCount = t.reg.dbRowCount)
    (h3 : s.reg.dbSizeBytes = t.reg.dbSizeBytes) :
    (s.exec steps).reg.dbOperations = (t.exec steps).reg.dbOperations
    ∧ (s.exec steps).reg.dbRowCount = (t.exec steps).reg.dbRowCount
    ∧ (s.exec steps).reg.dbSizeBytes = (t.exec steps).reg.dbSizeBytes := by
  induction steps generalizing s t with
  | nil => exact ⟨h1, h2, h3⟩
  | cons st rest ih =>
    have hs : s.exec (st :: rest) = (s.step st).exec rest := by simp [Serving.exec]
    have ht : t.exec (st :: rest) = (t.step st).exec rest := by simp [Serving.exec]
    rw [hs, ht]
    apply ih
    · cases st <;> simp [Serving.step, h1]
    · cases st <;> simp [Serving.step, h2]
    · cases st <;> simp [Serving.step, h3]

/-- The status the middleware reads after the handler is `capturedStatus`. -/
theorem status_after_exec (run : Run) (w : ResponseWriter) (reg : Registry) :
    (Serving.exec { ww := { ResponseWriter := w, status := 200 }, reg := reg } run.steps).ww.status
      = capturedStatus run := by
  simpa [capturedStatus] using (Serving.exec_writer run.steps _).2

/-- Registry after the middleware served a request with a valid UTF-8 path
whose handler returned, in terms of the state `s` the handler left. -/
theorem middleware_returned (next : Handler) (elapsed : Int) (w : ResponseWriter)
    (r : Request) (reg : Registry) (p : String)
    (hret : (next r).outcome = Outcome.returned) (hpath : r.Path = GoString.utf8 p) :
    ∃ s : Serving,
      s = Serving.exec { ww := { ResponseWriter := w, status := 200 },
                         reg := { reg with activeRequests := reg.activeRequests + 1 } }
            (next r).steps
      ∧ (Server.prometheusMiddleware next elapsed w r reg).reg =
        { totalRequests := s.reg.totalRequests.inc [r.Method, p, Itoa s.ww.status]
          successfulRequests :=
            s.reg.successfulRequests + (if s.ww.status ≥ 200 ∧ s.ww.status < 400 then 1 else 0)
          failedRequests :=
            s.reg.failedRequests + (if s.ww.status ≥ 200 ∧ s.ww.status < 400 then 0 else 1)
          requestDuration := s.reg.requestDuration.observe [r.Method, p] elapsed
          activeRequests := s.reg.activeRequests - 1
          dbOperations := s.reg.dbOperations
          dbRowCount := s.reg.dbRowCount
          dbSizeBytes := s.reg.dbSizeBytes }
      ∧ (Server.prometheusMiddleware next elapsed w r reg).outcome = Outcome.returned := by
  refine ⟨_, rfl, ?_, ?_⟩
  · simp only [Server.prometheusMiddleware, hret, hpath]
    split_ifs <;> simp
  · simp only [Server.prometheusMiddleware, hret, hpath]

/-- Registry after the middleware was left by a panic, of the handler or of
`WithLabelValues` on a path that is not valid UTF-8: the state the handler
left, with the gauge still incremented. -/
theorem middleware_panicked (next : Handler) (elapsed : Int) (w : ResponseWriter)
    (r : Request) (reg : Registry)
    (hp : (next r).outcome = Outcome.panicked ∨ ∃ bytes, r.Path = GoString.invalid bytes) :
    (Server.prometheusMiddleware next elapsed w r reg).reg =
        (Serving.exec { ww := { ResponseWriter := w, status := 200 },
                        reg := { reg with activeRequests := reg.activeRequests + 1 } }
          (next r).steps).reg
    ∧ (Server.prometheusMiddleware next elapsed w r reg).outcome = Outcome.panicked := by
  cases hout : (next r).outcome with
  | panicked => simp only [Server.prometheusMiddleware, hout, and_self]
  | returned =>
    rcases hp with hp | ⟨bytes, hb⟩
    · rw [hout] at hp
      exact absurd hp (by decide)
    · simp only [Server.prometheusMiddleware, hout, hb, and_self]

/-- Effect of one served request on the three request counters: none when
the middleware was left by a panic, otherwise one label combination and one
aggregate. -/
theorem serveOne_counters (reg : Registry) (a : Arrival) :
    ((serveOne reg a).totalRequests = reg.totalRequests
      ∧ (serveOne reg a).successfulRequests = reg.successfulRequests
      ∧ (serveOne reg a).failedRequests = reg.failedRequests)
    ∨ (∃ lvs : Labels, (serveOne reg a).totalRequests = reg.totalRequests.inc lvs
      ∧ (((serveOne reg a).successfulRequests = reg.successfulRequests + 1
            ∧ (serveOne reg a).failedRequests = reg.failedRequests)
         ∨ ((serveOne reg a).successfulRequests = reg.successfulRequests
            ∧ (serveOne reg a).failedRequests = reg.failedRequests + 1))) := by
  obtain ⟨f1, f2, f3, _, _⟩ := Serving.exec_frame (a.next a.r).steps
    { ww := { ResponseWriter := a.w, status := 200 },
      reg := { reg with activeRequests := reg.activeRequests + 1 } }
  simp only at f1 f2 f3
  have hleft : ((a.next a.r).outcome = Outcome.panicked
      ∨ ∃ bytes, a.r.Path = GoString.invalid bytes) →
      (serveOne reg a).totalRequests = reg.totalRequests
      ∧ (serveOne reg a).successfulRequests = reg.successfulRequests
      ∧ (serveOne reg a).failedRequests = reg.failedRequests := by
    intro hp
    have h := (middleware_panicked a.next a.elapsed a.w a.r reg hp).1
    simp only [serveOne, h, f1, f2, f3, and_self]
  cases hout : (a.next a.r).outcome with
  | panicked => exact Or.inl (hleft (Or.inl hout))
  | returned =>
    cases hpath : a.r.Path with
    | invalid bytes => exact Or.inl (hleft (Or.inr ⟨bytes, hpath⟩))
    | utf8 p =>
      right
      obtain ⟨s, hs, hreg, _⟩ := middleware_returned a.next a.elapsed a.w a.r reg p hout hpath
      rw [← hs] at f1 f2 f3
      refine ⟨[a.r.Method, p, Itoa s.ww.status], ?_, ?_⟩
      · simp only [serveOne, hreg, f1]
      · by_cases hc : s.ww.status ≥ 200 ∧ s.ww.status < 400
        · left
          simp only [serveOne, hreg, f2, f3, hc, and_self, if_true, Nat.add_zero]
        · right
          simp only [serveOne, hreg, f2, f3, hc, if_false, Nat.add_zero, and_self]

theorem serveAll_append (reg : Registry) (pre : List Arrival) (a : Arrival) :
    serveAll reg (pre ++ [a]) = serveOne (serveAll reg pre) a := by
  simp [serveAll, List.foldl_append]

/-- Serving requests keeps `success + failed = sum of total`. -/
theorem serveAll_balance (arrivals : List Arrival) :
    ∀ reg : Registry,
      reg.successfulRequests + reg.failedRequests = reg.totalRequests.sum →
      (serveAll reg arrivals).successfulRequests + (serveAll reg arrivals).failedRequests
        = (serveAll reg arrivals).totalRequests.sum := by
  induction arrivals with
  | nil => intro reg h; simpa [serveAll] using h
  | cons a rest ih =>
    intro reg h
    have hcons : serveAll reg (a :: rest) = serveAll (serveOne reg a) rest := by
      simp [serveAll]
    rw [hcons]
    apply ih
    rcases serveOne_counters reg a with ⟨h1, h2, h3⟩ | ⟨lvs, h1, h23⟩
    · rw [h1, h2, h3]; exact h
    · rw [h1, CounterVec.sum_inc]
      rcases h23 with ⟨h2, h3⟩ | ⟨h2, h3⟩ <;> (rw [h2, h3]; omega)

/-- One served request never lowers a request counter. -/
theorem serveOne_mono (reg : Registry) (a : Arrival) :
    (∀ lvs : Labels, reg.totalRequests.get lvs ≤ (serveOne reg a).totalRequests.get lvs)
    ∧ reg.successfulRequests ≤ (serveOne reg a).successfulRequests
    ∧ reg.failedRequests ≤ (serveOne reg a).failedRequests := by
  rcases serveOne_counters reg a with ⟨h1, h2, h3⟩ | ⟨lvs, h1, h23⟩
  · rw [h1, h2, h3]
    exact ⟨fun _ => le_refl _, le_refl _, le_refl _⟩
  · rw [h1]
    refine ⟨fun other => ?_, ?_, ?_⟩
    · rw [CounterVec.get_inc]; omega
    · rcases h23 with ⟨h2, _⟩ | ⟨h2, _⟩ <;> omega
    · rcases h23 with ⟨_, h3⟩ | ⟨_, h3⟩ <;> omega

theorem sum_zero_children (cs : List (Labels × Nat)) (h : ∀ c ∈ cs, c.2 = 0) :
    (cs.map Prod.snd).sum = 0 := by
  induction cs with
  | nil => rfl
  | cons c cs ih =>
    have hc : c.2 = 0 := h c (by simp)
    have hrest : ∀ x ∈ cs, x.2 = 0 := fun x hx => h x (by simp [hx])
    simp [hc, ih hrest]

/-! ## Lemmas on the handlers -/

theorem cpuIntensive_reported (r : Request) :
    reported (Server.cpuIntensive r) "iterations" = some (Value.int (cpuIntensive_iterations r))
    ∧ capturedStatus (Server.cpuIntensive r) = 200
    ∧ (Server.cpuIntensive r).outcome = Outcome.returned := by
  refine ⟨?_, ?_, rfl⟩
  · simp [reported, responseBody, Server.cpuIntensive, ok, callsOf, Body.field, Value.marshals]
  · simp [capturedStatus, Server.cpuIntensive, ok, callsOf, headerCodes]

theorem cpuIntensive_iterations_of_text (r : Request) (N : Int)
    (h : r.Query "iterations" = Itoa N) :
    cpuIntensive_iterations r = if 0 < N ∧ N < (2 : Int) ^ 63 then N else 1000000 := by
  have hlow : -(2 : Int) ^ 63 ≤ 0 := by norm_num
  simp only [cpuIntensive_iterations, h, ne_eq, Itoa_ne_empty, not_false_eq_true, if_true]
  rw [Atoi_Itoa]
  by_cases hr : -(2 : Int) ^ 63 ≤ N ∧ N < (2 : Int) ^ 63
  · rw [if_pos hr]
    simp only [gt_iff_lt]
    by_cases hp : 0 < N
    · rw [if_pos hp, if_pos ⟨hp, hr.2⟩]
    · rw [if_neg hp, if_neg (fun h2 => hp h2.1)]
  · rw [if_neg hr]
    simp only
    rw [if_neg (fun h2 => hr ⟨by linarith [h2.1], h2.2⟩)]

theorem cpuIntensive_iterations_default (r : Request)
    (h : r.Query "iterations" = "" ∨ isDecimal (r.Query "iterations") = false) :
    cpuIntensive_iterations r = 1000000 := by
  rcases h with h | h
  · simp [cpuIntensive_iterations, h]
  · simp [cpuIntensive_iterations, Atoi_not_decimal _ h]

theorem callsOf_makeBlocks (blocks : List (List Nat)) (rest : List Step) :
    callsOf (blocks.map Step.makeBlock ++ rest) = callsOf rest := by
  induction blocks with
  | nil => rfl
  | cons b bs ih => simpa [callsOf] using ih

theorem allocations_makeBlocks (blocks : List (List Nat)) (v : Body) :
    allocations (blocks.map Step.makeBlock ++ ok v) = blocks := by
  induction blocks with
  | nil => simp [allocations, ok]
  | cons b bs ih => simpa [allocations] using ih

theorem memoryIntensive_reported (intn : Nat → Nat) (r : Request) :
    reported (Server.memoryIntensive intn r) "allocated_mb"
      = some (Value.int (memoryIntensive_sizeMB r))
    ∧ capturedStatus (Server.memoryIntensive intn r) = 200
    ∧ (Server.memoryIntensive intn r).outcome = Outcome.returned := by
  refine ⟨?_, ?_, rfl⟩
  · simp [reported, responseBody, Server.memoryIntensive, callsOf_makeBlocks, ok, callsOf,
      Body.field, Value.marshals]
  · simp [capturedStatus, Server.memoryIntensive, callsOf_makeBlocks, ok, callsOf, headerCodes]

theorem memoryIntensive_allocations (intn : Nat → Nat) (r : Request) :
    allocations (Server.memoryIntensive intn r).steps = memoryIntensive_blocks intn r := by
  simp only [Server.memoryIntensive]
  exact allocations_makeBlocks _ _

theorem memoryIntensive_sizeMB_of_text (r : Request) (M : Int)
    (h : r.Query "size_mb" = Itoa M) :
    memoryIntensive_sizeMB r = if 1 ≤ M ∧ M ≤ 100 then M else 10 := by
  have hlow : -(2 : Int) ^ 63 ≤ 0 := by norm_num
  have hhigh : (100 : Int) < (2 : Int) ^ 63 := by norm_num
  simp only [memoryIntensive_sizeMB, h, ne_eq, Itoa_ne_empty, not_false_eq_true, if_true]
  rw [Atoi_Itoa]
  by_cases hr : -(2 : Int) ^ 63 ≤ M ∧ M < (2 : Int) ^ 63
  · rw [if_pos hr]
    simp only [gt_iff_lt]
    by_cases hp : 1 ≤ M ∧ M ≤ 100
    · rw [if_pos hp, if_pos ⟨by omega, hp.2⟩]
    · rw [if_neg hp, if_neg (fun h2 => hp ⟨by omega, h2.2⟩)]
  · rw [if_neg hr]
    simp only
    rw [if_neg (fun h2 => hr ⟨by linarith [h2.1], by linarith [h2.2]⟩)]

theorem memoryIntensive_sizeMB_default (r : Request)
    (h : r.Query "size_mb" = "" ∨ isDecimal (r.Query "size_mb") = false) :
    memoryIntensive_sizeMB r = 10 := by
  rcases h with h | h
  · simp [memoryIntensive_sizeMB, h]
  · simp [memoryIntensive_sizeMB, Atoi_not_decimal _ h]

theorem memoryIntensive_blocks_shape (intn : Nat → Nat) (r : Request) :
    (memoryIntensive_blocks intn r).length = (memoryIntensive_sizeMB r).toNat
    ∧ ∀ b ∈ memoryIntensive_blocks intn r, b.length = 1048576 := by
  constructor
  · simp [memoryIntensive_blocks]
  · intro b hb
    simp only [memoryIntensive_blocks, List.mem_map] at hb
    obtain ⟨i, _, rfl⟩ := hb
    simp

/-- IEEE comparison against the bounds agrees with membership in `[0, 10]`. -/
theorem Float64.le_bounds_iff (f : Float64) :
    (Float64.le (Float64.finite 0) f = true ∧ Float64.le f (Float64.finite 10) = true)
      ↔ f.inDelayRange = true := by
  cases f <;> simp [Float64.le, Float64.inDelayRange]

theorem simulateDelay_run (ParseFloat : String → Option Float64) (r : Request) :
    reported (Server.simulateDelay ParseFloat r) "delay_seconds"
      = some (Value.float (simulateDelay_delay ParseFloat r))
    ∧ sleeps (Server.simulateDelay ParseFloat r).steps = [simulateDelay_delay ParseFloat r]
    ∧ capturedStatus (Server.simulateDelay ParseFloat r) = 200
    ∧ (Server.simulateDelay ParseFloat r).outcome = Outcome.returned := by
  have hfin : ∃ q, simulateDelay_delay ParseFloat r = Float64.finite q := by
    unfold simulateDelay_delay
    simp only
    split_ifs with h1
    · cases hpf : ParseFloat (r.Query "delay_seconds") with
      | none => exact ⟨1, rfl⟩
      | some f =>
        simp only
        split_ifs with h2
        · rw [Float64.le_bounds_iff] at h2
          cases f with
          | finite q => exact ⟨q, rfl⟩
          | posInf => exact absurd h2 (by simp [Float64.inDelayRange])
          | negInf => exact absurd h2 (by simp [Float64.inDelayRange])
          | nan => exact absurd h2 (by simp [Float64.inDelayRange])
        · exact ⟨1, rfl⟩
    · exact ⟨1, rfl⟩
  obtain ⟨q, hq⟩ := hfin
  refine ⟨?_, ?_, ?_, rfl⟩
  · simp [reported, responseBody, Server.simulateDelay, ok, callsOf, Body.field,
      Value.marshals, hq]
  · simp [sleeps, Server.simulateDelay, ok]
  · simp [capturedStatus, Server.simulateDelay, ok, callsOf, headerCodes]

/-! ## Claims -/

/-- C4: for every sequence of steps a handler performs behind the middleware
(starting from the `statusWriter` the middleware builds, status 200), the
status read afterwards is the code of the most recent `WriteHeader` call and
200 when there was none; every call, `WriteHeader` with its code included, has
been forwarded in order to the underlying writer; `WriteHeader` records and
forwards its argument; `Write` leaves the recorded status unchanged. -/
theorem statusWriter_captures_last_status (w : ResponseWriter) (reg : Registry)
    (steps : List Step) :
    (Serving.exec { ww := { ResponseWriter := w, status := 200 }, reg := reg } steps).ww.status
        = (headerCodes (callsOf steps)).getLast?.getD 200
    ∧ (Serving.exec { ww := { ResponseWriter := w, status := 200 }, reg := reg }
          steps).ww.ResponseWriter.calls = w.calls ++ callsOf steps
    ∧ (∀ (x : statusWriter) (c : Int),
        (x.WriteHeader c).status = c
        ∧ (x.WriteHeader c).ResponseWriter.calls = x.ResponseWriter.calls ++ [Call.writeHeader c])
    ∧ (∀ (x : statusWriter) (b : Body), (x.Write b).status = x.status) := by
  refine ⟨?_, ?_, ?_, ?_⟩
  · simpa using (Serving.exec_writer steps _).2
  · simpa using (Serving.exec_writer steps _).1
  · intro x c
    simp [statusWriter.WriteHeader, ResponseWriter.recv]
  · intro x b
    simp [statusWriter.Write]

/-- Effect of the middleware on a completed request whose path is valid UTF-8:
when the handler of a request with method `m` and path `p` returns normally
with captured status `s`, the middleware adds 1 to `api_requests_total` for
the labels `(m, p, Itoa s)` and to no other label combination, adds 1 to
`api_requests_success_total` if `200 ≤ s < 400` and otherwise to
`api_requests_failed_total` (the other one is unchanged), appends one
observation to `api_request_duration_seconds` for `(m, p)` and to no other
child, leaves `api_active_requests` at its starting value, and leaves the
`db_*` collectors as the handler's own steps set them. -/
theorem middleware_records_valid_path (next : Handler) (elapsed : Int)
    (w : ResponseWriter) (r : Request) (reg : Registry) (p : String)
    (hret : (next r).outcome = Outcome.returned) (hpath : r.Path = GoString.utf8 p) :
    (∀ lvs : Labels,
        (Server.prometheusMiddleware next elapsed w r reg).reg.totalRequests.get lvs
          = reg.totalRequests.get lvs
            + (if lvs = [r.Method, p, Itoa (capturedStatus (next r))] then 1 else 0))
    ∧ (Server.prometheusMiddleware next elapsed w r reg).reg.successfulRequests
        = reg.successfulRequests
          + (if 200 ≤ capturedStatus (next r) ∧ capturedStatus (next r) < 400 then 1 else 0)
    ∧ (Server.prometheusMiddleware next elapsed w r reg).reg.failedRequests
        = reg.failedRequests
          + (if 200 ≤ capturedStatus (next r) ∧ capturedStatus (next r) < 400 then 0 else 1)
    ∧ (∀ lvs : Labels,
        (Server.prometheusMiddleware next elapsed w r reg).reg.requestDuration.get lvs
          = if lvs = [r.Method, p] then reg.requestDuration.get lvs ++ [elapsed]
            else reg.requestDuration.get lvs)
    ∧ (Server.prometheusMiddleware next elapsed w r reg).reg.activeRequests
        = reg.activeRequests
    ∧ (Server.prometheusMiddleware next elapsed w r reg).reg.dbOperations
        = (Serving.exec { ww := { ResponseWriter := w, status := 200 }, reg := reg }
            (next r).steps).reg.dbOperations
    ∧ (Server.prometheusMiddleware next elapsed w r reg).reg.dbRowCount
        = (Serving.exec { ww := { ResponseWriter := w, status := 200 }, reg := reg }
            (next r).steps).reg.dbRowCount
    ∧ (Server.prometheusMiddleware next elapsed w r reg).reg.dbSizeBytes
        = (Serving.exec { ww := { ResponseWriter := w, status := 200 }, reg := reg }
            (next r).steps).reg.dbSizeBytes
    ∧ (Server.prometheusMiddleware next elapsed w r reg).outcome = Outcome.returned := by
  obtain ⟨s, hs, hreg, hout⟩ := middleware_returned next elapsed w r reg p hret hpath
  have hstatus : s.ww.status = capturedStatus (next r) := by
    rw [hs]; exact status_after_exec (next r) w _
  obtain ⟨f1, f2, f3, f4, f5⟩ := Serving.exec_frame (next r).steps
    { ww := { ResponseWriter := w, status := 200 },
      reg := { reg with activeRequests := reg.activeRequests + 1 } }
  obtain ⟨d1, d2, d3⟩ := Serving.exec_db (next r).steps
    { ww := { ResponseWriter := w, status := 200 },
      reg := { reg with activeRequests := reg.activeRequests + 1 } }
    { ww := { ResponseWriter := w, status := 200 }, reg := reg } rfl rfl rfl
  rw [← hs] at f1 f2 f3 f4 f5 d1 d2 d3
  simp only at f1 f2 f3 f4 f5
  rw [hreg]
  refine ⟨?_, ?_, ?_, ?_, ?_, ?_, ?_, ?_, hout⟩
  · intro lvs
    simp only [hstatus, f1, CounterVec.get_inc]
  · simp only [hstatus, f2, ge_iff_le]
  · simp only [hstatus, f3, ge_iff_le]
  · intro lvs
    simp only [f4, HistogramVec.get_observe]
  · simp only [f5]
    omega
  · exact d1
  · exact d2
  · exact d3

/-- Example for `middleware_records_valid_path`: `GET /health`, served from
the initial registry, is counted once under `("GET", "/health", "200")` and
once as a success, and the in-flight gauge is back at its initial value. -/
theorem middleware_records_valid_path_example :
    (healthHandler getHealth).outcome = Outcome.returned
    ∧ (Server.prometheusMiddleware healthHandler 5 { calls := [] } getHealth
        Registry.init).reg.totalRequests.get ["GET", "/health", "200"] = 1
    ∧ (Server.prometheusMiddleware healthHandler 5 { calls := [] } getHealth
        Registry.init).reg.successfulRequests = 1
    ∧ (Server.prometheusMiddleware healthHandler 5 { calls := [] } getHealth
        Registry.init).reg.activeRequests = 0 :=
  have h := middleware_records_valid_path healthHandler 5 { calls := [] } getHealth
    Registry.init "/health" rfl rfl
  ⟨rfl, (h.1 ["GET", "/health", "200"]).trans (by decide), h.2.1.trans (by decide),
    h.2.2.2.2.1⟩

/-- C3 (evaluation at the failing input): the request `GET /%ff`, whose path
is not valid UTF-8, is answered by a handler that returns normally with
captured status 404; served from the initial registry, the middleware is left
by the panic of `WithLabelValues` (line 138): `api_requests_total` has no
child, `api_requests_failed_total` and `api_requests_success_total` stay 0,
`api_request_duration_seconds` has no observation, and `api_active_requests`
stays at 1 instead of returning to its starting value 0. -/
theorem completed_request_with_invalid_path_not_recorded :
    (notFoundHandler getInvalidPath).outcome = Outcome.returned
    ∧ capturedStatus (notFoundHandler getInvalidPath) = 404
    ∧ (Server.prometheusMiddleware notFoundHandler 5 { calls := [] } getInvalidPath
        Registry.init).outcome = Outcome.panicked
    ∧ (Server.prometheusMiddleware notFoundHandler 5 { calls := [] } getInvalidPath
        Registry.init).reg.totalRequests.children = []
    ∧ (Server.prometheusMiddleware notFoundHandler 5 { calls := [] } getInvalidPath
        Registry.init).reg.failedRequests = 0
    ∧ (Server.prometheusMiddleware notFoundHandler 5 { calls := [] } getInvalidPath
        Registry.init).reg.successfulRequests = 0
    ∧ (Server.prometheusMiddleware notFoundHandler 5 { calls := [] } getInvalidPath
        Registry.init).reg.requestDuration.children = []
    ∧ Registry.init.activeRequests = 0
    ∧ (Server.prometheusMiddleware notFoundHandler 5 { calls := [] } getInvalidPath
        Registry.init).reg.activeRequests = 1 := by
  decide

/-- C1 (evaluation at the failing input): a request whose handler panics,
served through the stack of `routes` from the initial registry, is answered
with status 500 by `Recoverer` while `api_active_requests` stays at 1 instead
of returning to its starting value 0. -/
theorem active_gauge_elevated_after_panic :
    (Server.routes panickingHandler 5 { calls := [] } getHealth Registry.init).outcome
      = Outcome.returned
    ∧ (Server.routes panickingHandler 5 { calls := [] } getHealth Registry.init).w.calls
      = [Call.writeHeader 500]
    ∧ Registry.init.activeRequests = 0
    ∧ (Server.routes panickingHandler 5 { calls := [] } getHealth Registry.init).reg.activeRequests
      = 1 := by
  decide

/-- C2 (evaluation at the failing input): a request whose handler panics,
served through the stack of `routes` from the initial registry, is answered
with status 500 but leaves `api_requests_total` without any child,
`api_requests_failed_total` and `api_requests_success_total` at 0 and
`api_request_duration_seconds` without any observation. -/
theorem panicked_request_not_recorded :
    (Server.routes panickingHandler 5 { calls := [] } getHealth Registry.init).w.calls
      = [Call.writeHeader 500]
    ∧ (Server.routes panickingHandler 5 { calls := [] } getHealth
        Registry.init).reg.totalRequests.children = []
    ∧ (Server.routes panickingHandler 5 { calls := [] } getHealth
        Registry.init).reg.failedRequests = 0
    ∧ (Server.routes panickingHandler 5 { calls := [] } getHealth
        Registry.init).reg.successfulRequests = 0
    ∧ (Server.routes panickingHandler 5 { calls := [] } getHealth
        Registry.init).reg.requestDuration.children = [] := by
  decide

/-- C10: starting from a registry whose request counters are all zero, after
any finite sequence of requests served one at a time by the middleware
(handlers returning with any status, or panicking)
`api_requests_success_total + api_requests_failed_total` equals the sum of
`api_requests_total` over all label combinations, and from each step to the
next no child of `api_requests_total` and neither aggregate counter decreases. -/
theorem request_counters_balanced (reg0 : Registry) (arrivals : List Arrival)
    (hzero : ∀ c ∈ reg0.totalRequests.children, c.2 = 0)
    (hs : reg0.successfulRequests = 0) (hf : reg0.failedRequests = 0) :
    (serveAll reg0 arrivals).successfulRequests + (serveAll reg0 arrivals).failedRequests
      = (serveAll reg0 arrivals).totalRequests.sum
    ∧ ∀ n : Nat,
        (∀ lvs : Labels,
          (serveAll reg0 (arrivals.take n)).totalRequests.get lvs
            ≤ (serveAll reg0 (arrivals.take (n + 1))).totalRequests.get lvs)
        ∧ (serveAll reg0 (arrivals.take n)).successfulRequests
            ≤ (serveAll reg0 (arrivals.take (n + 1))).successfulRequests
        ∧ (serveAll reg0 (arrivals.take n)).failedRequests
            ≤ (serveAll reg0 (arrivals.take (n + 1))).failedRequests := by
  constructor
  · apply serveAll_balance
    rw [hs, hf]
    simp [CounterVec.sum, sum_zero_children _ hzero]
  · intro n
    rw [List.take_succ]
    cases hn : arrivals[n]? with
    | none =>
      simp only [Option.toList, List.append_nil]
      exact ⟨fun _ => le_refl _, le_refl _, le_refl _⟩
    | some a =>
      simp only [Option.toList]
      rw [serveAll_append]
      exact serveOne_mono _ a

/-- Witness for C10: from the initial registry, a completed `GET /health`
followed by a request whose handler panics leaves one success, no failure and
a total of one. -/
theorem request_counters_balanced_witness :
    (∀ c ∈ Registry.init.totalRequests.children, c.2 = 0)
    ∧ Registry.init.successfulRequests = 0 ∧ Registry.init.failedRequests = 0
    ∧ (serveAll Registry.init
        [{ w := { calls := [] }, r := getHealth, next := healthHandler, elapsed := 5 },
         { w := { calls := [] }, r := getHealth, next := panickingHandler, elapsed := 7 }]
        ).successfulRequests
      + (serveAll Registry.init
        [{ w := { calls := [] }, r := getHealth, next := healthHandler, elapsed := 5 },
         { w := { calls := [] }, r := getHealth, next := panickingHandler, elapsed := 7 }]
        ).failedRequests
      = (serveAll Registry.init
        [{ w := { calls := [] }, r := getHealth, next := healthHandler, elapsed := 5 },
         { w := { calls := [] }, r := getHealth, next := panickingHandler, elapsed := 7 }]
        ).totalRequests.sum :=
  ⟨by decide, rfl, rfl,
    (request_counters_balanced Registry.init _ (by decide) rfl rfl).1⟩

/-- C5 (counterexample): the positive integer 9223372036854775808, passed as
its decimal text in `iterations`, is not reported back: `cpuIntensive` reports
the default 1000000. -/
theorem cpuIntensive_large_count_not_reported :
    (0 : Int) < 9223372036854775808
    ∧ Itoa 9223372036854775808 = "9223372036854775808"
    ∧ reported (Server.cpuIntensive
        (postWith "/cpu-intensive" "iterations" "9223372036854775808")) "iterations"
      = some (Value.int 1000000)
    ∧ reported (Server.cpuIntensive
        (postWith "/cpu-intensive" "iterations" "9223372036854775808")) "iterations"
      ≠ some (Value.int 9223372036854775808) := by
  decide

/-- C5 (amended): for every integer `N` with `0 < N ≤ 9223372036854775807`
passed as the decimal text of `iterations`, `cpuIntensive` reports
`iterations = N`; for every `N ≤ 0`, every `N > 9223372036854775807`, every
text that is not a decimal integer, and an absent or empty parameter, it
reports `iterations = 1000000`.  In all cases the handler returns with
status 200. -/
theorem cpuIntensive_iterations_param (r : Request) :
    (∀ N : Int, 0 < N → N ≤ 9223372036854775807 → r.Query "iterations" = Itoa N →
        reported (Server.cpuIntensive r) "iterations" = some (Value.int N))
    ∧ (∀ N : Int, (N ≤ 0 ∨ 9223372036854775807 < N) → r.Query "iterations" = Itoa N →
        reported (Server.cpuIntensive r) "iterations" = some (Value.int 1000000))
    ∧ (isDecimal (r.Query "iterations") = false →
        reported (Server.cpuIntensive r) "iterations" = some (Value.int 1000000))
    ∧ (r.Query "iterations" = "" →
        reported (Server.cpuIntensive r) "iterations" = some (Value.int 1000000))
    ∧ capturedStatus (Server.cpuIntensive r) = 200
    ∧ (Server.cpuIntensive r).outcome = Outcome.returned := by
  obtain ⟨hrep, hstatus, hout⟩ := cpuIntensive_reported r
  have hpow : (2 : Int) ^ 63 = 9223372036854775808 := by norm_num
  refine ⟨?_, ?_, ?_, ?_, hstatus, hout⟩
  · intro N hpos hmax htext
    rw [hrep, cpuIntensive_iterations_of_text r N htext, if_pos ⟨hpos, by rw [hpow]; omega⟩]
  · intro N hN htext
    rw [hrep, cpuIntensive_iterations_of_text r N htext,
      if_neg (fun h => by rw [hpow] at h; omega)]
  · intro h
    rw [hrep, cpuIntensive_iterations_default r (Or.inr h)]
  · intro h
    rw [hrep, cpuIntensive_iterations_default r (Or.inl h)]

/-- Witness for C5 (amended): `iterations=250` is reported as 250,
`iterations=-3` and `iterations=abc` as 1000000. -/
theorem cpuIntensive_iterations_param_witness :
    reported (Server.cpuIntensive (postWith "/cpu-intensive" "iterations" "250")) "iterations"
      = some (Value.int 250)
    ∧ reported (Server.cpuIntensive (postWith "/cpu-intensive" "iterations" "-3")) "iterations"
      = some (Value.int 1000000)
    ∧ reported (Server.cpuIntensive (postWith "/cpu-intensive" "iterations" "abc")) "iterations"
      = some (Value.int 1000000) :=
  ⟨(cpuIntensive_iterations_param (postWith "/cpu-intensive" "iterations" "250")).1 250
      (by decide) (by decide) (by decide),
   (cpuIntensive_iterations_param (postWith "/cpu-intensive" "iterations" "-3")).2.1 (-3)
      (by decide) (by decide),
   (cpuIntensive_iterations_param (postWith "/cpu-intensive" "iterations" "abc")).2.2.1
      (by decide)⟩

/-- C6: for every integer `M` with `1 ≤ M ≤ 100` passed as the decimal text of
`size_mb`, the run of `memoryIntensive` allocates `M` buffers of 1048576 bytes
each and reports `allocated_mb = M`; for every integer outside `[1, 100]`,
every text that is not a decimal integer, and an absent or empty parameter, it
allocates 10 buffers of 1048576 bytes and reports `allocated_mb = 10`. -/
theorem memoryIntensive_size_param (intn : Nat → Nat) (r : Request) :
    (∀ M : Int, 1 ≤ M → M ≤ 100 → r.Query "size_mb" = Itoa M →
        ((allocations (Server.memoryIntensive intn r).steps).length : Int) = M
        ∧ (∀ b ∈ allocations (Server.memoryIntensive intn r).steps, b.length = 1048576)
        ∧ reported (Server.memoryIntensive intn r) "allocated_mb" = some (Value.int M))
    ∧ (∀ M : Int, (M < 1 ∨ 100 < M) → r.Query "size_mb" = Itoa M →
        (allocations (Server.memoryIntensive intn r).steps).length = 10
        ∧ (∀ b ∈ allocations (Server.memoryIntensive intn r).steps, b.length = 1048576)
        ∧ reported (Server.memoryIntensive intn r) "allocated_mb" = some (Value.int 10))
    ∧ (isDecimal (r.Query "size_mb") = false →
        (allocations (Server.memoryIntensive intn r).steps).length = 10
        ∧ (∀ b ∈ allocations (Server.memoryIntensive intn r).steps, b.length = 1048576)
        ∧ reported (Server.memoryIntensive intn r) "allocated_mb" = some (Value.int 10))
    ∧ (r.Query "size_mb" = "" →
        (allocations (Server.memoryIntensive intn r).steps).length = 10
        ∧ (∀ b ∈ allocations (Server.memoryIntensive intn r).steps, b.length = 1048576)
        ∧ reported (Server.memoryIntensive intn r) "allocated_mb" = some (Value.int 10))
    ∧ capturedStatus (Server.memoryIntensive intn r) = 200
    ∧ (Server.memoryIntensive intn r).outcome = Outcome.returned := by
  obtain ⟨hrep, hstatus, hout⟩ := memoryIntensive_reported intn r
  obtain ⟨hlen, hblock⟩ := memoryIntensive_blocks_shape intn r
  rw [← memoryIntensive_allocations intn r] at hlen hblock
  refine ⟨?_, ?_, ?_, ?_, hstatus, hout⟩
  · intro M h1 h100 htext
    have hsize := memoryIntensive_sizeMB_of_text r M htext
    rw [if_pos ⟨h1, h100⟩] at hsize
    refine ⟨?_, hblock, ?_⟩
    · rw [hlen, hsize]; omega
    · rw [hrep, hsize]
  · intro M hM htext
    have hsize := memoryIntensive_sizeMB_of_text r M htext
    rw [if_neg (fun h => by omega)] at hsize
    refine ⟨?_, hblock, ?_⟩
    · rw [hlen, hsize]; rfl
    · rw [hrep, hsize]
  · intro h
    have hsize := memoryIntensive_sizeMB_default r (Or.inr h)
    refine ⟨?_, hblock, ?_⟩
    · rw [hlen, hsize]; rfl
    · rw [hrep, hsize]
  · intro h
    have hsize := memoryIntensive_sizeMB_default r (Or.inl h)
    refine ⟨?_, hblock, ?_⟩
    · rw [hlen, hsize]; rfl
    · rw [hrep, hsize]

/-- Witness for C6: `size_mb=3` allocates 3 buffers and reports 3,
`size_mb=101` allocates 10 buffers and reports 10. -/
theorem memoryIntensive_size_param_witness :
    (((allocations (Server.memoryIntensive (fun k => k)
          (postWith "/memory-intensive" "size_mb" "3")).steps).length : Int) = 3
      ∧ reported (Server.memoryIntensive (fun k => k)
          (postWith "/memory-intensive" "size_mb" "3")) "allocated_mb" = some (Value.int 3))
    ∧ ((allocations (Server.memoryIntensive (fun k => k)
          (postWith "/memory-intensive" "size_mb" "101")).steps).length = 10
      ∧ reported (Server.memoryIntensive (fun k => k)
          (postWith "/memory-intensive" "size_mb" "101")) "allocated_mb" = some (Value.int 10)) :=
  have h3 := (memoryIntensive_size_param (fun k => k)
    (postWith "/memory-intensive" "size_mb" "3")).1 3 (by decide) (by decide) (by decide)
  have h101 := (memoryIntensive_size_param (fun k => k)
    (postWith "/memory-intensive" "size_mb" "101")).2.1 101 (by decide) (by decide)
  ⟨⟨h3.1, h3.2.2⟩, ⟨h101.1, h101.2.2⟩⟩

/-- C7: with `F` the value `strconv.ParseFloat` returns without error for the
text of `delay_seconds`: when `0 ≤ F ≤ 10`, `simulateDelay` reports
`delay_seconds = F` and its one `time.Sleep` is for `F` seconds; when `F` is
outside `[0, 10]` (negative, above 10, an infinity or NaN), when the text does
not parse, and when the parameter is absent or empty, it reports
`delay_seconds = 1.0` and sleeps for one second.  In all cases the handler
returns with status 200. -/
theorem simulateDelay_delay_param (ParseFloat : String → Option Float64) (r : Request) :
    (∀ F : Float64, r.Query "delay_seconds" ≠ "" →
        ParseFloat (r.Query "delay_seconds") = some F → F.inDelayRange = true →
        reported (Server.simulateDelay ParseFloat r) "delay_seconds" = some (Value.float F)
        ∧ sleeps (Server.simulateDelay ParseFloat r).steps = [F])
    ∧ (∀ F : Float64, ParseFloat (r.Query "delay_seconds") = some F →
        ((∃ q : ℚ, F = Float64.finite q ∧ (q < 0 ∨ 10 < q))
          ∨ F = Float64.posInf ∨ F = Float64.negInf ∨ F = Float64.nan) →
        reported (Server.simulateDelay ParseFloat r) "delay_seconds"
          = some (Value.float (Float64.finite 1))
        ∧ sleeps (Server.simulateDelay ParseFloat r).steps = [Float64.finite 1])
    ∧ (ParseFloat (r.Query "delay_seconds") = none →
        reported (Server.simulateDelay ParseFloat r) "delay_seconds"
          = some (Value.float (Float64.finite 1))
        ∧ sleeps (Server.simulateDelay ParseFloat r).steps = [Float64.finite 1])
    ∧ (r.Query "delay_seconds" = "" →
        reported (Server.simulateDelay ParseFloat r) "delay_seconds"
          = some (Value.float (Float64.finite 1))
        ∧ sleeps (Server.simulateDelay ParseFloat r).steps = [Float64.finite 1])
    ∧ capturedStatus (Server.simulateDelay ParseFloat r) = 200
    ∧ (Server.simulateDelay ParseFloat r).outcome = Outcome.returned := by
  obtain ⟨hrep, hsleep, hstatus, hout⟩ := simulateDelay_run ParseFloat r
  rw [hrep, hsleep]
  refine ⟨?_, ?_, ?_, ?_, hstatus, hout⟩
  · intro F hne hparse hrange
    have hd : simulateDelay_delay ParseFloat r = F := by
      simp only [simulateDelay_delay, hne, ne_eq, not_false_eq_true, if_true, hparse]
      rw [if_pos ((Float64.le_bounds_iff F).mpr hrange)]
    rw [hd]
    exact ⟨rfl, rfl⟩
  · intro F hparse hout
    have hnot : ¬ F.inDelayRange = true := by
      rcases hout with ⟨q, rfl, hq⟩ | rfl | rfl | rfl
      · intro h
        simp only [Float64.inDelayRange, decide_eq_true_eq] at h
        rcases hq with hq | hq
        · exact absurd h.1 (not_le.mpr hq)
        · exact absurd h.2 (not_le.mpr hq)
      · simp [Float64.inDelayRange]
      · simp [Float64.inDelayRange]
      · simp [Float64.inDelayRange]
    have hd : simulateDelay_delay ParseFloat r = Float64.finite 1 := by
      simp only [simulateDelay_delay, hparse]
      rw [if_neg (fun h => hnot ((Float64.le_bounds_iff F).mp h))]
      simp
    rw [hd]
    exact ⟨rfl, rfl⟩
  · intro hparse
    have hd : simulateDelay_delay ParseFloat r = Float64.finite 1 := by
      simp [simulateDelay_delay, hparse]
    rw [hd]
    exact ⟨rfl, rfl⟩
  · intro hempty
    have hd : simulateDelay_delay ParseFloat r = Float64.finite 1 := by
      simp [simulateDelay_delay, hempty]
    rw [hd]
    exact ⟨rfl, rfl⟩

/-- Witness for C7: `delay_seconds=2.5` is reported and slept as 2.5,
`delay_seconds=NaN` as 1.0. -/
theorem simulateDelay_delay_param_witness :
    (reported (Server.simulateDelay parseSample
        (postWith "/simulate-delay" "delay_seconds" "2.5")) "delay_seconds"
        = some (Value.float (Float64.finite (5 / 2)))
      ∧ sleeps (Server.simulateDelay parseSample
          (postWith "/simulate-delay" "delay_seconds" "2.5")).steps = [Float64.finite (5 / 2)])
    ∧ (reported (Server.simulateDelay parseSample
        (postWith "/simulate-delay" "delay_seconds" "NaN")) "delay_seconds"
        = some (Value.float (Float64.finite 1))
      ∧ sleeps (Server.simulateDelay parseSample
          (postWith "/simulate-delay" "delay_seconds" "NaN")).steps = [Float64.finite 1]) :=
  ⟨(simulateDelay_delay_param parseSample
      (postWith "/simulate-delay" "delay_seconds" "2.5")).1 (Float64.finite (5 / 2))
      (by decide) (by simp [parseSample, postWith])
      (by simp only [Float64.inDelayRange]; norm_num),
   (simulateDelay_delay_param parseSample
      (postWith "/simulate-delay" "delay_seconds" "NaN")).2.1 Float64.nan
      (by decide) (Or.inr (Or.inr (Or.inr rfl)))⟩

/-- C8 (counterexample): a size query that succeeds with 9007199254740993
leaves `db_size_bytes` at 9007199254740992, not at the queried value. -/
theorem collectDBMetrics_rounds_large_size :
    (collectDBMetrics (some 9007199254740993) Registry.init).dbSizeBytes = 9007199254740992
    ∧ (collectDBMetrics (some 9007199254740993) Registry.init).dbSizeBytes
        ≠ 9007199254740993 := by
  decide

/-- C8 (amended): one call of `collectDBMetrics` whose query succeeds with `v`
sets `db_size_bytes` to `float64(v)` and changes no other series, and
`float64(v)` is `v` itself whenever `-2^53 ≤ v ≤ 2^53`; one whose query fails
or times out changes no series at all. -/
theorem collectDBMetrics_frame (reg : Registry) :
    (∀ v : Int, collectDBMetrics (some v) reg = { reg with dbSizeBytes := float64 v })
    ∧ (∀ v : Int, -9007199254740992 ≤ v → v ≤ 9007199254740992 →
        collectDBMetrics (some v) reg = { reg with dbSizeBytes := v })
    ∧ collectDBMetrics none reg = reg := by
  refine ⟨fun _ => rfl, ?_, rfl⟩
  intro v hlo hhi
  have hpow : (2 : Int) ^ 53 = 9007199254740992 := by norm_num
  have hx : float64 v = v := float64_exact v (by rw [hpow]; exact hlo) (by rw [hpow]; exact hhi)
  simp only [collectDBMetrics, hx]

/-- Witness for C8 (amended): from gauges 10 and 7000, a sample of 123456789
overwrites `db_size_bytes` with 123456789 and keeps `db_rows` at 10. -/
theorem collectDBMetrics_frame_witness :
    (collectDBMetrics (some 123456789) sampledServing.reg).dbSizeBytes = 123456789
    ∧ (collectDBMetrics (some 123456789) sampledServing.reg).dbRowCount = 10
    ∧ (collectDBMetrics none sampledServing.reg).dbSizeBytes = 7000 :=
  have h := collectDBMetrics_frame sampledServing.reg
  have h1 := h.2.1 123456789 (by decide) (by decide)
  ⟨congrArg Registry.dbSizeBytes h1, congrArg Registry.dbRowCount h1,
    congrArg Registry.dbSizeBytes h.2.2⟩

/-- C9 (counterexample): when the size query of `stats` succeeds with
9007199254740993, the response field `db_size_bytes` is 9007199254740993 but
the gauge `db_size_bytes` is overwritten with 9007199254740992, not with the
queried value. -/
theorem stats_gauge_rounds_large_size :
    reported (Server.stats (some 42) (some 9007199254740993) getHealth) "db_size_bytes"
      = some (Value.int 9007199254740993)
    ∧ (sampledServing.exec
        (Server.stats (some 42) (some 9007199254740993) getHealth).steps).reg.dbSizeBytes
      = 9007199254740992
    ∧ (sampledServing.exec
        (Server.stats (some 42) (some 9007199254740993) getHealth).steps).reg.dbSizeBytes
      ≠ 9007199254740993 := by
  decide

/-- C9 (amended): for each of the four combinations of outcomes of the two
queries of `stats`, run from any serving state: the response fields `db_rows`
and `db_size_bytes` are the queried value on success and 0 on failure; the
gauges `db_rows` and `db_size_bytes` are overwritten with `float64` of the
queried value on success, which is the queried value itself whenever it lies
in `[-2^53, 2^53]`, and keep their prior value on failure;
`db_operations_total` grows by one for the label `stats` and for no other
label; the handler returns with status 200. -/
theorem stats_reports_each_query (rowQuery sizeQuery : Option Int) (r : Request) (s : Serving) :
    reported (Server.stats rowQuery sizeQuery r) "db_rows" = some (Value.int (rowQuery.getD 0))
    ∧ reported (Server.stats rowQuery sizeQuery r) "db_size_bytes"
        = some (Value.int (sizeQuery.getD 0))
    ∧ (s.exec (Server.stats rowQuery sizeQuery r).steps).reg.dbRowCount
        = (rowQuery.map float64).getD s.reg.dbRowCount
    ∧ (s.exec (Server.stats rowQuery sizeQuery r).steps).reg.dbSizeBytes
        = (sizeQuery.map float64).getD s.reg.dbSizeBytes
    ∧ (∀ v : Int, -9007199254740992 ≤ v → v ≤ 9007199254740992 → rowQuery = some v →
        (s.exec (Server.stats rowQuery sizeQuery r).steps).reg.dbRowCount = v)
    ∧ (∀ v : Int, -9007199254740992 ≤ v → v ≤ 9007199254740992 → sizeQuery = some v →
        (s.exec (Server.stats rowQuery sizeQuery r).steps).reg.dbSizeBytes = v)
    ∧ (∀ lvs : Labels,
        (s.exec (Server.stats rowQuery sizeQuery r).steps).reg.dbOperations.get lvs
          = s.reg.dbOperations.get lvs + (if lvs = ["stats"] then 1 else 0))
    ∧ capturedStatus (Server.stats rowQuery sizeQuery r) = 200
    ∧ (Server.stats rowQuery sizeQuery r).outcome = Outcome.returned := by
  have hpow : (2 : Int) ^ 53 = 9007199254740992 := by norm_num
  have hexact : ∀ v : Int, -9007199254740992 ≤ v → v ≤ 9007199254740992 → float64 v = v :=
    fun v hlo hhi => float64_exact v (by rw [hpow]; exact hlo) (by rw [hpow]; exact hhi)
  have hrow : (s.exec (Server.stats rowQuery sizeQuery r).steps).reg.dbRowCount
      = (rowQuery.map float64).getD s.reg.dbRowCount := by
    cases rowQuery <;> cases sizeQuery <;>
      simp [Server.stats, ok, Serving.exec, Serving.step]
  have hsize : (s.exec (Server.stats rowQuery sizeQuery r).steps).reg.dbSizeBytes
      = (sizeQuery.map float64).getD s.reg.dbSizeBytes := by
    cases rowQuery <;> cases sizeQuery <;>
      simp [Server.stats, ok, Serving.exec, Serving.step]
  refine ⟨?_, ?_, hrow, hsize, ?_, ?_, ?_, ?_, rfl⟩
  · cases rowQuery <;> cases sizeQuery <;>
      simp [reported, responseBody, Server.stats, ok, callsOf, Body.field, Value.marshals]
  · cases rowQuery <;> cases sizeQuery <;>
      simp [reported, responseBody, Server.stats, ok, callsOf, Body.field, Value.marshals]
  · intro v hlo hhi hq
    rw [hrow, hq]
    exact hexact v hlo hhi
  · intro v hlo hhi hq
    rw [hsize, hq]
    exact hexact v hlo hhi
  · intro lvs
    cases rowQuery <;> cases sizeQuery <;>
      simp [Server.stats, ok, Serving.exec, Serving.step, CounterVec.get_inc]
  · cases rowQuery <;> cases sizeQuery <;>
      simp [Server.stats, ok, callsOf, capturedStatus, headerCodes]

/-- Witness for C9 (amended): a successful table count of 42 with a failed
size query, starting from gauges 10 and 7000, sets `db_rows` to 42, keeps
`db_size_bytes` at 7000 and reports `db_rows = 42`, `db_size_bytes = 0`. -/
theorem stats_reports_each_query_witness :
    (sampledServing.exec (Server.stats (some 42) none getHealth).steps).reg.dbRowCount = 42
    ∧ (sampledServing.exec (Server.stats (some 42) none getHealth).steps).reg.dbSizeBytes = 7000
    ∧ reported (Server.stats (some 42) none getHealth) "db_rows" = some (Value.int 42)
    ∧ reported (Server.stats (some 42) none getHealth) "db_size_bytes" = some (Value.int 0) :=
  have h := stats_reports_each_query (some 42) none getHealth sampledServing
  ⟨h.2.2.2.2.1 42 (by decide) (by decide) rfl, h.2.2.2.1, h.1, h.2.1⟩

end K8sLab
